import Mathlib

/-!
# Verification of the python-executor session core

Shallow embedding of `src/python-executor/src/code_executor.py` and
`src/python-executor/src/kernel_manager.py`, plus proofs about the claims of
the specification.

Python dictionaries (`self.kernels`, `self.last_activity`, `self.working_dirs`)
are embedded as association lists with Python-dict semantics: assignment
replaces the value at an existing key in place, otherwise appends; `del`
removes the key; iteration follows the list order (Python dicts preserve
insertion order).  Wall-clock instants are integers (seconds); each embedded
operation receives the relevant `datetime.now()` readings and the outcomes of
the external world (kernel readiness, shutdown errors) as explicit parameters.
Backend-process interactions are recorded as an event trace so that statements
like "without contacting the backend" and "force-terminates the partially
started backend" are expressible.
-/

deriving instance DecidableEq for Except

namespace PyExec

/-- Python dict membership `k in d` for an association list. -/
def dictMem (d : List (String × α)) (k : String) : Bool :=
  d.any (fun kv => kv.1 = k)

/-- Python dict lookup `d.get(k)` (first binding of `k`). -/
def dictGet (d : List (String × α)) (k : String) : Option α :=
  (d.find? (fun kv => kv.1 = k)).map (fun kv => kv.2)

/-- Python dict assignment `d[k] = v`: replace the binding in place when the
key exists, otherwise append (insertion order is preserved, as in Python
dicts). -/
def dictSet : List (String × α) → String → α → List (String × α)
  | [], k, v => [(k, v)]
  | kv :: rest, k, v =>
    if kv.1 = k then (k, v) :: rest else kv :: dictSet rest k v

/-- Python dict deletion `del d[k]`: remove the binding of `k` (callers embed
the `KeyError` raised on a missing key explicitly). -/
def dictDel : List (String × α) → String → List (String × α)
  | [], _ => []
  | kv :: rest, k =>
    if kv.1 = k then dictDel rest k else kv :: dictDel rest k

/-- The keys of the dict, in iteration order (`list(d.keys())`). -/
def dictKeys (d : List (String × α)) : List String :=
  d.map (fun kv => kv.1)

/-- Python `pat in s` for strings: `pat` occurs as a contiguous substring. -/
def strContains (pat s : String) : Bool :=
  decide (pat.toList <:+: s.toList)

/-- Python `s.startswith(pre)`. -/
def pyStartswith (s pre : String) : Bool :=
  decide (pre.toList <+: s.toList)

/-- Whitespace for Python's `str.strip()` (the ASCII whitespace characters;
the Unicode cases do not arise in this development). -/
def isPySpace (c : Char) : Bool :=
  c = ' ' ∨ c = '\t' ∨ c = '\n' ∨ c = '\r' ∨ c = '\x0b' ∨ c = '\x0c'

/-- Python `s.strip()`: remove leading and trailing whitespace. -/
def pyStrip (s : String) : String :=
  ⟨(((s.toList.dropWhile isPySpace).reverse.dropWhile isPySpace).reverse)⟩

/-- Outcome of CPython's `compile(code, '<string>', 'exec')`, used as an
oracle parameter: the builtin compiler is an external collaborator of the
core, not code of this repository. -/
inductive CompileOutcome where
  | ok : CompileOutcome
  | syntaxError (msg : String) : CompileOutcome
  | otherError (msg : String) : CompileOutcome
deriving DecidableEq, Repr

/-- The fixed denylist `dangerous_patterns` of `CodeExecutor.validate_code`. -/
def dangerous_patterns : List String :=
  ["os.system", "subprocess.", "__import__", "eval(", "exec("]

/-- Embedding of `CodeExecutor.validate_code` (code_executor.py:114-149).  `pyCompile` is
the oracle for the builtin `compile`.  Returns `(is_valid, error_message)`. -/
def validate_code (pyCompile : String → CompileOutcome) (code : String) :
    Bool × String :=
  if code = "" ∨ pyStrip code = "" then
    (false, "Code cannot be empty")
  else
    match dangerous_patterns.find? (fun pat => strContains pat code) with
    | some pat => (false, "Potentially dangerous operation detected: " ++ pat)
    | none =>
      match pyCompile code with
      | .ok => (true, "")
      | .syntaxError msg => (false, "Syntax error: " ++ msg)
      | .otherError msg => (false, "Validation error: " ++ msg)

/-- A Python exception escaping an embedded function. -/
inductive PyErr where
  | attributeError (msg : String)
  | keyError (key : String)
  | runtimeError (msg : String)
deriving DecidableEq, Repr

/-- Python `str(e)` for an exception value. -/
def PyErr.str : PyErr → String
  | .attributeError msg => msg
  | .keyError key => key
  | .runtimeError msg => msg

/-- An instant returned by `datetime.datetime.now()`, in whole seconds. -/
structure DateTime where
  seconds : Int
deriving DecidableEq, Repr

/-- The attribute access `t.total_seconds()` on a `datetime.datetime` value.
`total_seconds` is a method of `datetime.timedelta`, not of
`datetime.datetime`, so in CPython this lookup raises `AttributeError`.
code_executor.py:53 and code_executor.py:58 perform exactly this call on the
result of `datetime.now()`. -/
def DateTime.total_seconds (_t : DateTime) : Except PyErr Int :=
  .error (.attributeError
    "'datetime.datetime' object has no attribute 'total_seconds'")

/-- One message delivered by `kc.get_iopub_msg`, reduced to the fields the
collection loop of `CodeExecutor.execute_code` inspects.  `displayData`
carries the optional `image/png` and `text/plain` entries of
`content['data']`; `executeResult` carries `content['data'].get('text/plain')`. -/
inductive IopubMsg where
  | stream (text : String)
  | errorMsg (traceback : List String)
  | executeResult (textPlain : Option String)
  | displayData (png : Option String) (textPlain : Option String)
  | statusIdle
  | statusOther
deriving DecidableEq, Repr

/-- Outcome of one `kc.get_iopub_msg(timeout=1)` call: a message, the poll
timeout (whose `str` contains "Timeout"), or some other receive failure. -/
inductive RecvOutcome where
  | msg (m : IopubMsg)
  | timeoutExn
  | otherExn (msg : String)
deriving DecidableEq, Repr

/-- One iteration of the collection loop, as seen from outside: the
`datetime.now()` instant at the top of the iteration and the outcome of the
subsequent read attempt. -/
structure LoopTick where
  now : DateTime
  recv : RecvOutcome
deriving DecidableEq, Repr

/-- Python `'\n'.join(parts)`. -/
def joinLines (parts : List String) : String :=
  String.intercalate "\n" parts

/-- The accumulators of `CodeExecutor.execute_code`
(`output_parts`, `error_parts`, `result`, `plots`, `success`). -/
structure CollectAcc where
  output_parts : List String
  error_parts : List String
  result : Option String
  plots : List String
  success : Bool
deriving DecidableEq, Repr

/-- Classification of one received iopub message
(code_executor.py:65-91).  Returns the updated accumulator and whether the
loop breaks (`status` with `execution_state == 'idle'`). -/
def collectStep (acc : CollectAcc) : IopubMsg → CollectAcc × Bool
  | .stream text =>
    ({ acc with output_parts := acc.output_parts ++ [text] }, false)
  | .errorMsg traceback =>
    ({ acc with error_parts := acc.error_parts ++ [joinLines traceback],
                success := false }, false)
  | .executeResult textPlain =>
    ({ acc with result := some (textPlain.getD "") }, false)
  | .displayData png textPlain =>
    match png with
    | some payload => ({ acc with plots := acc.plots ++ [payload] }, false)
    | none =>
      match textPlain with
      | some text => ({ acc with output_parts := acc.output_parts ++ [text] }, false)
      | none => (acc, false)
  | .statusIdle => (acc, true)
  | .statusOther => (acc, false)

/-- The collection loop of `CodeExecutor.execute_code`
(code_executor.py:55-101), driven by the observed schedule of iterations.
Each iteration first evaluates `datetime.now().total_seconds() > deadline`
(code_executor.py:58); since that attribute access raises, the outer
`except Exception` handler (code_executor.py:98-101) fires, appending
"Unexpected error: ..." to `error_parts` and clearing `success`.  The
remaining branches embed the loop body as it would run if the check
succeeded.  An exhausted schedule returns the accumulator unchanged (the
environment supplied no further iteration). -/
def collectLoop (timeout deadline : Int) :
    List LoopTick → CollectAcc → CollectAcc
  | [], acc => acc
  | t :: rest, acc =>
    match t.now.total_seconds with
    | .error e =>
      { acc with
          error_parts := acc.error_parts ++ ["Unexpected error: " ++ e.str],
          success := false }
    | .ok nowSec =>
      if nowSec > deadline then
        { acc with
            error_parts := acc.error_parts ++
              ["Execution timeout (" ++ toString timeout ++ "s)"],
            success := false }
      else
        match t.recv with
        | .timeoutExn => collectLoop timeout deadline rest acc
        | .otherExn _ => collectLoop timeout deadline rest acc
        | .msg m =>
          let step := collectStep acc m
          if step.2 then step.1 else collectLoop timeout deadline rest step.1

/-- The result record assembled by `CodeExecutor.execute_code`
(code_executor.py:105-112). -/
structure ExecutionResult where
  success : Bool
  output : String
  error : String
  result : Option String
  plots : List String
  execution_time : Int
deriving DecidableEq, Repr

/-- Embedding of `CodeExecutor.execute_code` (code_executor.py:40-112).  `start` is the
`datetime.now()` of line 40, `deadlineNow` the one of line 53, `endNow` the
one of line 103; `ticks` is the observed schedule of loop iterations.  The
submission `kc.execute(code)` (line 44) does not influence the assembled
record and is not represented.  Line 53 computes
`deadline = datetime.now().total_seconds() + timeout` outside of any `try`
block, so the `AttributeError` raised by `total_seconds` escapes the
function. -/
def execute_code (start deadlineNow endNow : DateTime) (ticks : List LoopTick)
    (_code : String) (timeout : Int) : Except PyErr ExecutionResult :=
  match deadlineNow.total_seconds with
  | .error e => .error e
  | .ok nowSec =>
    let deadline := nowSec + timeout
    let acc := collectLoop timeout deadline ticks
      { output_parts := [], error_parts := [], result := none,
        plots := [], success := true }
    .ok
      { success := acc.success
        output := pyStrip (joinLines acc.output_parts)
        error := pyStrip (joinLines acc.error_parts)
        result := acc.result
        plots := acc.plots
        execution_time := endNow.seconds - start.seconds }

/-- Interactions with backend kernel processes, recorded as a trace so that
"without contacting the backend" and "force-terminates the partially started
backend" are expressible.  Kernels are identified by the order in which they
are started. -/
inductive BackendEvent where
  | mkdir (dir : String)
  | startKernel (kid : Nat) (cwd : String)
  | shutdownKernel (kid : Nat) (now : Bool)
  | execOnKernel (kid : Nat)
deriving DecidableEq, Repr

/-- Status of the periodic-cleanup task handle `self._cleanup_task`. -/
inductive ReaperStatus where
  | running
  | cancelledAwaited
deriving DecidableEq, Repr

/-- The mutable state of a `KernelManager` (kernel_manager.py:26-33).
`kernels` maps each user id to the identity of its live kernel; `nextKid` is
the identity the next started kernel will receive. -/
structure MState where
  kernels : List (String × Nat)
  last_activity : List (String × Int)
  working_dirs : List (String × String)
  nextKid : Nat
  reaper : Option ReaperStatus
deriving DecidableEq, Repr

/-- Constructor arguments of `KernelManager.__init__`: the idle timeout (in
seconds, the embedding of `timedelta(minutes=timeout_minutes)`) and
`max_kernels_per_user`. -/
structure Config where
  timeout : Int
  max_kernels_per_user : Nat
deriving DecidableEq, Repr

/-- The state right after `KernelManager.__init__`: empty tables, no cleanup
task. -/
def initState : MState :=
  { kernels := [], last_activity := [], working_dirs := [],
    nextKid := 0, reaper := none }

/-- Embedding of `KernelManager.start_cleanup_task` (kernel_manager.py:35-38): create the
periodic-cleanup task if it does not exist yet. -/
def start_cleanup_task (st : MState) : MState :=
  match st.reaper with
  | none => { st with reaper := some .running }
  | some _ => st

/-- Embedding of `KernelManager.cleanup_kernel` (kernel_manager.py:155-168).
`shutdownRaises` records whether `km.shutdown_kernel(now=True)` raised; the
surrounding `try/except` logs and swallows either outcome, so it cannot
influence the result — the `finally` block always runs.  `del
self.last_activity[user_id]` raises `KeyError` when the key is absent, after
`del self.kernels[user_id]` has already run. -/
def cleanup_kernel (_shutdownRaises : Bool) (uid : String) (st : MState) :
    Except PyErr Unit × MState × List BackendEvent :=
  match dictGet st.kernels uid with
  | none => (.ok (), st, [])
  | some kid =>
    let ev := [BackendEvent.shutdownKernel kid true]
    let st1 := { st with kernels := dictDel st.kernels uid }
    if dictMem st.last_activity uid then
      let st2 := { st1 with last_activity := dictDel st1.last_activity uid }
      let st3 :=
        if dictMem st2.working_dirs uid then
          { st2 with working_dirs := dictDel st2.working_dirs uid }
        else st2
      (.ok (), st3, ev)
    else
      (.error (.keyError uid), st1, ev)

/-- Sequential `await self.cleanup_kernel(user_id)` over a list of user ids,
stopping at (and propagating) the first raised exception, as a Python `for`
loop does. -/
def cleanupMany (shutdownRaises : Bool) :
    List String → MState → Except PyErr Unit × MState × List BackendEvent
  | [], st => (.ok (), st, [])
  | uid :: rest, st =>
    match cleanup_kernel shutdownRaises uid st with
    | (.error e, st', ev) => (.error e, st', ev)
    | (.ok _, st', ev) =>
      match cleanupMany shutdownRaises rest st' with
      | (r2, st2, ev2) => (r2, st2, ev ++ ev2)

/-- Embedding of `KernelManager.cleanup_expired_kernels` (kernel_manager.py:170-180):
collect the users whose `now - last_time >= self.timeout` from
`self.last_activity` in iteration order, then clean each up. -/
def cleanup_expired_kernels (cfg : Config) (now : Int) (shutdownRaises : Bool)
    (st : MState) : Except PyErr Unit × MState × List BackendEvent :=
  let expired_users :=
    (st.last_activity.filter (fun kv => cfg.timeout ≤ now - kv.2)).map
      (fun kv => kv.1)
  cleanupMany shutdownRaises expired_users st

/-- Embedding of `KernelManager.shutdown_all` (kernel_manager.py:182-194): clean up every
user in `list(self.kernels.keys())`, then cancel the cleanup task and await
it (swallowing its `CancelledError`).  An exception from a cleanup propagates
before the task is cancelled. -/
def shutdown_all (shutdownRaises : Bool) (st : MState) :
    Except PyErr Unit × MState × List BackendEvent :=
  match cleanupMany shutdownRaises (dictKeys st.kernels) st with
  | (.error e, st', ev) => (.error e, st', ev)
  | (.ok _, st', ev) =>
    match st'.reaper with
    | none => (.ok (), st', ev)
    | some _ => (.ok (), { st' with reaper := some .cancelledAwaited }, ev)

/-- Environment of one `get_or_create_kernel` call: the `datetime.now()`
reading (the calls at kernel_manager.py:71, 73, 136, 149 happen within one
invocation and are modelled by a single instant), whether `kc.wait_for_ready`
completed within the 60-second `asyncio.wait_for` (kernel_manager.py:104-107),
and whether shutdown attempts during the call raise. -/
structure CreateEnv where
  now : Int
  readyInTime : Bool
  shutdownRaises : Bool
deriving DecidableEq, Repr

/-- Lines 81-153 of `KernelManager.get_or_create_kernel`: the path taken once
no reusable kernel exists.  Counts `uid.startswith(user_id)` over
`self.kernels.keys()` (kernel_manager.py:82), creates the working directory,
starts a kernel, waits for readiness (on timeout: `km.shutdown_kernel()` then
`RuntimeError`), submits the init code (whose completion or failure has no
effect on the stored state), and registers the kernel. -/
def create_fresh_kernel (cfg : Config) (env : CreateEnv) (uid wd : String)
    (st : MState) (ev0 : List BackendEvent) :
    Except PyErr Nat × MState × List BackendEvent :=
  if (dictKeys st.kernels).countP (fun k => pyStartswith k uid) ≥
      cfg.max_kernels_per_user then
    (.error (.runtimeError ("User " ++ uid ++
      " has reached maximum kernel limit (" ++
      toString cfg.max_kernels_per_user ++ ")")), st, ev0)
  else if env.readyInTime then
    (.ok st.nextKid,
      { st with
          kernels := dictSet st.kernels uid st.nextKid,
          last_activity := dictSet st.last_activity uid env.now,
          working_dirs := dictSet st.working_dirs uid wd,
          nextKid := st.nextKid + 1 },
      ev0 ++ [.mkdir wd, .startKernel st.nextKid wd, .execOnKernel st.nextKid])
  else
    (.error (.runtimeError "Kernel failed to start within 60 seconds"),
      { st with nextKid := st.nextKid + 1 },
      ev0 ++ [.mkdir wd, .startKernel st.nextKid wd,
        .shutdownKernel st.nextKid false])

/-- Embedding of `KernelManager.get_or_create_kernel` (kernel_manager.py:51-153).  If an
entry exists and `datetime.now() - self.last_activity[user_id] <
self.timeout`, refresh the activity timestamp and return the stored kernel
without any backend event; if the entry is stale, clean it up synchronously
and fall through to creation. -/
def get_or_create_kernel (cfg : Config) (env : CreateEnv) (uid wd : String)
    (st : MState) : Except PyErr Nat × MState × List BackendEvent :=
  if dictMem st.kernels uid then
    match dictGet st.last_activity uid with
    | none => (.error (.keyError uid), st, [])
    | some la =>
      if env.now - la < cfg.timeout then
        match dictGet st.kernels uid with
        | some kid =>
          (.ok kid,
            { st with last_activity := dictSet st.last_activity uid env.now },
            [])
        | none => (.error (.keyError uid), st, [])
      else
        match cleanup_kernel env.shutdownRaises uid st with
        | (.error e, st', ev) => (.error e, st', ev)
        | (.ok _, st', ev) => create_fresh_kernel cfg env uid wd st' ev
  else
    create_fresh_kernel cfg env uid wd st []

/-- Embedding of `KernelManager.get_kernel_info` (kernel_manager.py:196-206): the
introspection snapshot, keyed like `self.kernels` (`alive` and timestamps are
read from the backend and the tables; only the key structure matters to the
claims). -/
def get_kernel_info (st : MState) : List (String × Nat) :=
  st.kernels

/-- Environment of one iteration of `_periodic_cleanup`
(kernel_manager.py:42-49): whether an `asyncio.CancelledError` arrived during
the `asyncio.sleep(60)` of this iteration, and the sweep's `datetime.now()`
and shutdown outcomes otherwise. -/
structure SweepEnv where
  cancelled : Bool
  now : Int
  shutdownRaises : Bool
deriving DecidableEq, Repr

/-- How the `while True` loop of `_periodic_cleanup` ends on a given finite
schedule of iterations: the schedule is exhausted with the loop still
running, the loop `break`s cleanly on cancellation, or an exception escapes
the loop. -/
inductive LoopExit where
  | stillRunning
  | exitedClean
  | exitedRaising (e : PyErr)
deriving DecidableEq, Repr

/-- Whether the loop ended by an exception escaping it. -/
def LoopExit.isRaising : LoopExit → Bool
  | .exitedRaising _ => true
  | _ => false

/-- Embedding of `KernelManager._periodic_cleanup` (kernel_manager.py:40-49), run on a
finite schedule of iteration environments.  Each iteration sleeps then
sweeps inside `try`; `except asyncio.CancelledError` breaks out of the loop,
and `except Exception` logs and swallows anything a sweep raises (the state
mutated by a partially completed raising sweep is kept), so the next
iteration still runs. -/
def periodic_cleanup (cfg : Config) :
    List SweepEnv → MState → LoopExit × MState
  | [], st => (.stillRunning, st)
  | env :: rest, st =>
    if env.cancelled then
      (.exitedClean, st)
    else
      let c := cleanup_expired_kernels cfg env.now env.shutdownRaises st
      periodic_cleanup cfg rest c.2.1

/-! ## Dictionary lemmas -/

theorem dictMem_nil {α : Type} (k : String) :
    dictMem ([] : List (String × α)) k = false := rfl

theorem dictMem_cons {α : Type} (kv : String × α) (rest : List (String × α))
    (k : String) :
    dictMem (kv :: rest) k = (decide (kv.1 = k) || dictMem rest k) := by
  simp [dictMem]

theorem dictGet_cons {α : Type} (kv : String × α) (rest : List (String × α))
    (k : String) :
    dictGet (kv :: rest) k = if kv.1 = k then some kv.2 else dictGet rest k := by
  by_cases h : kv.1 = k
  · rw [dictGet, List.find?_cons_of_pos _ (by simpa using h), if_pos h]
    rfl
  · rw [dictGet, List.find?_cons_of_neg _ (by simpa using h), if_neg h]
    rfl

theorem dictMem_eq_isSome {α : Type} (d : List (String × α)) (k : String) :
    dictMem d k = (dictGet d k).isSome := by
  induction d with
  | nil => rfl
  | cons kv rest ih =>
    rw [dictMem_cons, dictGet_cons]
    by_cases h : kv.1 = k
    · simp [h]
    · simp [h, ih]

theorem dictGet_eq_none_iff {α : Type} (d : List (String × α)) (k : String) :
    dictGet d k = none ↔ dictMem d k = false := by
  rw [dictMem_eq_isSome]
  rcases h : dictGet d k with _ | v <;> simp

theorem dictKeys_cons {α : Type} (kv : String × α) (rest : List (String × α)) :
    dictKeys (kv :: rest) = kv.1 :: dictKeys rest := rfl

theorem dictMem_iff {α : Type} (d : List (String × α)) (k : String) :
    dictMem d k = true ↔ k ∈ dictKeys d := by
  simp only [dictMem, dictKeys, List.any_eq_true, List.mem_map,
    decide_eq_true_eq]

theorem dictGet_dictSet_self {α : Type} (d : List (String × α)) (k : String)
    (v : α) : dictGet (dictSet d k v) k = some v := by
  induction d with
  | nil => simp [dictSet, dictGet_cons]
  | cons kv rest ih =>
    rw [dictSet]
    by_cases h : kv.1 = k
    · simp [h, dictGet_cons]
    · simp [h, dictGet_cons, ih]

theorem dictGet_dictSet_ne {α : Type} (d : List (String × α)) (k u : String)
    (v : α) (hne : ¬ u = k) : dictGet (dictSet d k v) u = dictGet d u := by
  have hku : ¬ (k = u) := fun hh => hne hh.symm
  induction d with
  | nil =>
    rw [dictSet, dictGet_cons]
    simp [hku]
  | cons kv rest ih =>
    rw [dictSet]
    by_cases h : kv.1 = k
    · rw [if_pos h, dictGet_cons, dictGet_cons,
        if_neg (show ¬ ((k, v) : String × α).1 = u from hku),
        if_neg (show ¬ kv.1 = u from by rw [h]; exact hku)]
    · rw [if_neg h, dictGet_cons, dictGet_cons, ih]

theorem dictMem_dictSet {α : Type} (d : List (String × α)) (k u : String)
    (v : α) : dictMem (dictSet d k v) u = (dictMem d u || decide (u = k)) := by
  by_cases hu : u = k
  · subst hu
    rw [dictMem_eq_isSome, dictGet_dictSet_self]
    simp
  · rw [dictMem_eq_isSome, dictGet_dictSet_ne d k u v hu, ← dictMem_eq_isSome]
    simp [hu]

theorem dictKeys_dictSet_of_mem {α : Type} (d : List (String × α))
    (k : String) (v : α) (h : dictMem d k = true) :
    dictKeys (dictSet d k v) = dictKeys d := by
  induction d with
  | nil => rw [dictMem_nil] at h; cases h
  | cons kv rest ih =>
    rw [dictSet]
    by_cases hk : kv.1 = k
    · rw [if_pos hk, dictKeys_cons, dictKeys_cons, hk]
    · have h' : dictMem rest k = true := by
        rw [dictMem_cons] at h
        simpa [hk] using h
      rw [if_neg hk, dictKeys_cons, dictKeys_cons, ih h']

theorem dictKeys_dictSet_of_not_mem {α : Type} (d : List (String × α))
    (k : String) (v : α) (h : dictMem d k = false) :
    dictKeys (dictSet d k v) = dictKeys d ++ [k] := by
  induction d with
  | nil => rfl
  | cons kv rest ih =>
    have h1 : ¬ kv.1 = k := by
      intro hh
      rw [dictMem_cons] at h
      simp [hh] at h
    have h2 : dictMem rest k = false := by
      rw [dictMem_cons] at h
      simpa [h1] using h
    rw [dictSet, if_neg h1, dictKeys_cons, dictKeys_cons, ih h2]
    rfl

theorem dictKeys_dictDel {α : Type} (d : List (String × α)) (k : String) :
    dictKeys (dictDel d k) = (dictKeys d).filter (fun u => ! decide (u = k)) := by
  induction d with
  | nil => rfl
  | cons kv rest ih =>
    rw [dictDel]
    by_cases hk : kv.1 = k
    · rw [if_pos hk, ih, dictKeys_cons]
      simp [hk]
    · rw [if_neg hk, dictKeys_cons, dictKeys_cons, ih]
      simp [hk]

theorem dictGet_dictDel_self {α : Type} (d : List (String × α)) (k : String) :
    dictGet (dictDel d k) k = none := by
  rw [dictGet_eq_none_iff]
  rcases h : dictMem (dictDel d k) k
  · rfl
  · rw [dictMem_iff, dictKeys_dictDel] at h
    simp [List.mem_filter] at h

theorem dictGet_dictDel_ne {α : Type} (d : List (String × α)) (k u : String)
    (hne : ¬ u = k) : dictGet (dictDel d k) u = dictGet d u := by
  induction d with
  | nil => rfl
  | cons kv rest ih =>
    rw [dictDel]
    by_cases hk : kv.1 = k
    · rw [if_pos hk, ih, dictGet_cons,
        if_neg (show ¬ kv.1 = u from by rw [hk]; exact fun hh => hne hh.symm)]
    · rw [if_neg hk, dictGet_cons, dictGet_cons, ih]

theorem dictMem_dictDel {α : Type} (d : List (String × α)) (k u : String) :
    dictMem (dictDel d k) u = (dictMem d u && ! decide (u = k)) := by
  by_cases hu : u = k
  · subst hu
    rw [dictMem_eq_isSome, dictGet_dictDel_self]
    simp
  · rw [dictMem_eq_isSome, dictGet_dictDel_ne d k u hu, ← dictMem_eq_isSome]
    simp [hu]

theorem dictDel_eq_self {α : Type} (d : List (String × α)) (k : String)
    (h : dictMem d k = false) : dictDel d k = d := by
  induction d with
  | nil => rfl
  | cons kv rest ih =>
    rw [dictMem_cons] at h
    simp only [Bool.or_eq_false_iff, decide_eq_false_iff_not] at h
    rw [dictDel, if_neg h.1, ih h.2]

theorem dictKeys_nodup_dictSet {α : Type} (d : List (String × α)) (k : String)
    (v : α) (h : (dictKeys d).Nodup) : (dictKeys (dictSet d k v)).Nodup := by
  rcases hm : dictMem d k
  · rw [dictKeys_dictSet_of_not_mem d k v hm]
    have hk : k ∉ dictKeys d := by
      intro hk
      rw [← dictMem_iff] at hk
      rw [hk] at hm
      cases hm
    simp [List.nodup_append, h, hk]
  · rw [dictKeys_dictSet_of_mem d k v hm]
    exact h

theorem dictKeys_nodup_dictDel {α : Type} (d : List (String × α)) (k : String)
    (h : (dictKeys d).Nodup) : (dictKeys (dictDel d k)).Nodup := by
  rw [dictKeys_dictDel]
  exact h.filter _

theorem dictMem_head_of_nonempty {α : Type} (kv : String × α)
    (rest : List (String × α)) : dictMem (kv :: rest) kv.1 = true := by
  simp [dictMem_cons]

theorem dictGet_isSome_of_mem {α : Type} (d : List (String × α)) (k : String)
    (h : dictMem d k = true) : (dictGet d k).isSome = true := by
  rw [dictMem_eq_isSome] at h
  exact h

/-! ## Characterizations of the table operations -/

theorem cleanup_kernel_not_mem (b : Bool) (uid : String) (st : MState)
    (h : dictMem st.kernels uid = false) :
    cleanup_kernel b uid st = (.ok (), st, []) := by
  unfold cleanup_kernel
  rw [(dictGet_eq_none_iff _ _).mpr h]

theorem cleanup_kernel_mem (b : Bool) (uid : String) (st : MState) (kid : Nat)
    (hk : dictGet st.kernels uid = some kid)
    (hla : dictMem st.last_activity uid = true) :
    cleanup_kernel b uid st =
      (.ok (),
        { st with kernels := dictDel st.kernels uid,
                  last_activity := dictDel st.last_activity uid,
                  working_dirs := dictDel st.working_dirs uid },
        [.shutdownKernel kid true]) := by
  unfold cleanup_kernel
  rw [hk]
  simp only [hla, if_pos]
  by_cases hwd : dictMem st.working_dirs uid = true
  · rw [if_pos hwd]
  · rw [if_neg hwd,
      dictDel_eq_self st.working_dirs uid (by simpa using hwd)]

/-! ## The structural invariant of the session table -/

/-- The structural invariant of a `KernelManager` state: no duplicate keys in
any table, the kernels table and the activity table have the same key set,
every working-directory key has a kernel, and every stored kernel identity
was allocated before `nextKid`. -/
structure Inv (st : MState) : Prop where
  kNodup : (dictKeys st.kernels).Nodup
  laNodup : (dictKeys st.last_activity).Nodup
  wdNodup : (dictKeys st.working_dirs).Nodup
  dom_eq : ∀ u, dictMem st.kernels u = dictMem st.last_activity u
  wd_sub : ∀ u, dictMem st.working_dirs u = true → dictMem st.kernels u = true
  kid_lt : ∀ u kid, dictGet st.kernels u = some kid → kid < st.nextKid

theorem inv_initState : Inv initState := by
  refine ⟨?_, ?_, ?_, ?_, ?_, ?_⟩ <;> simp [initState, dictKeys, dictMem, dictGet]

theorem inv_start_cleanup_task (st : MState) (h : Inv st) :
    Inv (start_cleanup_task st) := by
  unfold start_cleanup_task
  split
  · exact ⟨h.kNodup, h.laNodup, h.wdNodup, h.dom_eq, h.wd_sub, h.kid_lt⟩
  · exact h

theorem inv_cleanup_kernel (b : Bool) (uid : String) (st : MState)
    (h : Inv st) : Inv (cleanup_kernel b uid st).2.1 := by
  rcases hm : dictMem st.kernels uid
  · rw [cleanup_kernel_not_mem b uid st hm]
    exact h
  · have hs := dictGet_isSome_of_mem st.kernels uid hm
    rcases hk : dictGet st.kernels uid with _ | kid
    · rw [hk] at hs; cases hs
    · have hla : dictMem st.last_activity uid = true := by
        rw [← h.dom_eq uid]; exact hm
      rw [cleanup_kernel_mem b uid st kid hk hla]
      refine ⟨?_, ?_, ?_, ?_, ?_, ?_⟩
      · exact dictKeys_nodup_dictDel _ _ h.kNodup
      · exact dictKeys_nodup_dictDel _ _ h.laNodup
      · exact dictKeys_nodup_dictDel _ _ h.wdNodup
      · intro u
        simp only [dictMem_dictDel, h.dom_eq u]
      · intro u hu
        simp only [dictMem_dictDel] at hu ⊢
        rcases (Bool.and_eq_true _ _).mp hu with ⟨hu1, hu2⟩
        rw [h.wd_sub u hu1, hu2]
        rfl
      · intro u kid' hg
        simp only at hg
        by_cases huu : u = uid
        · rw [huu, dictGet_dictDel_self] at hg
          cases hg
        · rw [dictGet_dictDel_ne _ _ _ huu] at hg
          exact h.kid_lt u kid' hg

theorem inv_create_fresh_kernel (cfg : Config) (env : CreateEnv)
    (uid wd : String) (st : MState) (ev0 : List BackendEvent) (h : Inv st) :
    Inv (create_fresh_kernel cfg env uid wd st ev0).2.1 := by
  unfold create_fresh_kernel
  split
  · exact h
  · split
    · refine ⟨?_, ?_, ?_, ?_, ?_, ?_⟩
      · exact dictKeys_nodup_dictSet _ _ _ h.kNodup
      · exact dictKeys_nodup_dictSet _ _ _ h.laNodup
      · exact dictKeys_nodup_dictSet _ _ _ h.wdNodup
      · intro u
        simp only [dictMem_dictSet, h.dom_eq u]
      · intro u hu
        simp only [dictMem_dictSet] at hu ⊢
        rcases Bool.or_eq_true_iff.mp hu with hu1 | hu1
        · rw [h.wd_sub u hu1]
          rfl
        · rw [hu1]
          simp
      · intro u kid' hg
        simp only at hg
        by_cases huu : u = uid
        · rw [huu, dictGet_dictSet_self] at hg
          cases hg
          exact Nat.lt_succ_self _
        · rw [dictGet_dictSet_ne _ _ _ _ huu] at hg
          exact Nat.lt_succ_of_lt (h.kid_lt u kid' hg)
    · refine ⟨h.kNodup, h.laNodup, h.wdNodup, h.dom_eq, h.wd_sub, ?_⟩
      intro u kid' hg
      exact Nat.lt_succ_of_lt (h.kid_lt u kid' hg)

theorem inv_get_or_create_kernel (cfg : Config) (env : CreateEnv)
    (uid wd : String) (st : MState) (h : Inv st) :
    Inv (get_or_create_kernel cfg env uid wd st).2.1 := by
  unfold get_or_create_kernel
  split
  · next hmem =>
    split
    · exact h
    · split
      · split
        · refine ⟨h.kNodup, ?_, h.wdNodup, ?_, h.wd_sub, h.kid_lt⟩
          · exact dictKeys_nodup_dictSet _ _ _ h.laNodup
          · intro u
            rw [dictMem_dictSet, ← h.dom_eq u]
            by_cases huu : u = uid
            · subst huu
              simp [hmem]
            · simp [huu]
        · exact h
      · split
        · next heq =>
          have := inv_cleanup_kernel env.shutdownRaises uid st h
          rw [heq] at this
          exact this
        · next heq =>
          have := inv_cleanup_kernel env.shutdownRaises uid st h
          rw [heq] at this
          exact inv_create_fresh_kernel cfg env uid wd _ _ this
  · exact inv_create_fresh_kernel cfg env uid wd st [] h

theorem inv_cleanupMany (b : Bool) (us : List String) :
    ∀ st : MState, Inv st → Inv (cleanupMany b us st).2.1 := by
  induction us with
  | nil => intro st h; exact h
  | cons uid rest ih =>
    intro st h
    unfold cleanupMany
    split
    · next heq =>
      have := inv_cleanup_kernel b uid st h
      rw [heq] at this
      exact this
    · next heq =>
      split
      · next heq2 =>
        have h1 := inv_cleanup_kernel b uid st h
        rw [heq] at h1
        have h2 := ih _ h1
        rw [heq2] at h2
        exact h2

theorem inv_cleanup_expired_kernels (cfg : Config) (now : Int) (b : Bool)
    (st : MState) (h : Inv st) :
    Inv (cleanup_expired_kernels cfg now b st).2.1 := by
  unfold cleanup_expired_kernels
  exact inv_cleanupMany b _ st h

theorem inv_shutdown_all (b : Bool) (st : MState) (h : Inv st) :
    Inv (shutdown_all b st).2.1 := by
  unfold shutdown_all
  split
  · next heq =>
    have := inv_cleanupMany b (dictKeys st.kernels) st h
    rw [heq] at this
    exact this
  · next st' ev heq =>
    have h1 := inv_cleanupMany b (dictKeys st.kernels) st h
    rw [heq] at h1
    split
    · exact h1
    · exact ⟨h1.kNodup, h1.laNodup, h1.wdNodup, h1.dom_eq, h1.wd_sub, h1.kid_lt⟩

/-! ## Reachable states -/

/-- One state transition of the session table: any of the operations of the
`KernelManager`, with arbitrary arguments and environment outcomes (error
results included: the state an operation leaves behind when it raises is
still a reachable state). -/
inductive Step (cfg : Config) : MState → MState → Prop where
  | startTask (st : MState) : Step cfg st (start_cleanup_task st)
  | create (env : CreateEnv) (uid wd : String) (st : MState) :
      Step cfg st (get_or_create_kernel cfg env uid wd st).2.1
  | cleanup (b : Bool) (uid : String) (st : MState) :
      Step cfg st (cleanup_kernel b uid st).2.1
  | sweep (now : Int) (b : Bool) (st : MState) :
      Step cfg st (cleanup_expired_kernels cfg now b st).2.1
  | shutdownAll (b : Bool) (st : MState) :
      Step cfg st (shutdown_all b st).2.1

/-- The states reachable from a freshly constructed `KernelManager` by any
sequence of operations. -/
inductive Reach (cfg : Config) : MState → Prop where
  | init : Reach cfg initState
  | step {st st' : MState} : Reach cfg st → Step cfg st st' → Reach cfg st'

theorem inv_of_reach {cfg : Config} {st : MState} (h : Reach cfg st) :
    Inv st := by
  induction h with
  | init => exact inv_initState
  | step _ hstep ih =>
    cases hstep with
    | startTask _ => exact inv_start_cleanup_task _ ih
    | create env uid wd _ => exact inv_get_or_create_kernel cfg env uid wd _ ih
    | cleanup b uid _ => exact inv_cleanup_kernel b uid _ ih
    | sweep now b _ => exact inv_cleanup_expired_kernels cfg now b _ ih
    | shutdownAll b _ => exact inv_shutdown_all b _ ih

/-! ## Concrete instances used by the claim analyses -/

/-- The default configuration of `KernelManager.__init__`:
`timeout_minutes = 30` (1800 seconds) and `max_kernels_per_user = 3`. -/
def defaultConfig : Config :=
  { timeout := 1800, max_kernels_per_user := 3 }

/-- The environment of an untroubled `get_or_create_kernel` call at t = 100. -/
def envAt100 : CreateEnv :=
  { now := 100, readyInTime := true, shutdownRaises := false }

/-- The state after users "a1", "a2", "a3" each created a kernel at t = 100
under the default configuration. -/
def stThreeOwners : MState :=
  { kernels := [("a1", 0), ("a2", 1), ("a3", 2)],
    last_activity := [("a1", 100), ("a2", 100), ("a3", 100)],
    working_dirs := [("a1", "/w"), ("a2", "/w"), ("a3", "/w")],
    nextKid := 3, reaper := none }

/-! ## Claims -/

/-- C1: the claim says `execute_code` never raises for execution-level
failures and returns an `ExecutionResult` with `success = false` and a
synthesized timeout message when the deadline fires.  The code instead
raises `AttributeError` on every call: line 53 evaluates
`datetime.now().total_seconds()` (an attribute `datetime.datetime` does not
have) outside of any `try` block, before a single message is read, so no
result record is ever returned. -/
theorem claim_C1_execute_code_always_raises (start deadlineNow endNow : DateTime)
    (ticks : List LoopTick) (code : String) (timeout : Int) :
    execute_code start deadlineNow endNow ticks code timeout =
      .error (.attributeError
        "'datetime.datetime' object has no attribute 'total_seconds'") := rfl

/-- C4: `validate_code` is a pure function that accepts exactly the
non-empty, non-whitespace-only strings containing no denylisted substring
that the compiler accepts; a denylisted substring yields a rejection whose
reason names a matched pattern regardless of the compile outcome; empty or
whitespace-only input is rejected with the emptiness reason. -/
theorem claim_C4_validate_code_spec (pyCompile : String → CompileOutcome)
    (code : String) :
    ((validate_code pyCompile code).1 = true ↔
      (¬ pyStrip code = "" ∧
        (∀ p ∈ dangerous_patterns, strContains p code = false) ∧
        pyCompile code = .ok))
    ∧ (pyStrip code = "" →
        validate_code pyCompile code = (false, "Code cannot be empty"))
    ∧ (∀ p ∈ dangerous_patterns, strContains p code = true →
        ¬ pyStrip code = "" →
        (validate_code pyCompile code).1 = false ∧
        ∃ q, q ∈ dangerous_patterns ∧ strContains q code = true ∧
          (validate_code pyCompile code).2 =
            "Potentially dangerous operation detected: " ++ q) := by
  by_cases hstrip : pyStrip code = ""
  · have hv : validate_code pyCompile code = (false, "Code cannot be empty") := by
      unfold validate_code
      rw [if_pos (Or.inr hstrip)]
    refine ⟨?_, fun _ => hv, ?_⟩
    · rw [hv]
      constructor
      · intro h
        exact absurd h Bool.false_ne_true
      · rintro ⟨hne, -, -⟩
        exact absurd hstrip hne
    · intro p hp hc hne
      exact absurd hstrip hne
  · have hif : ¬ (code = "" ∨ pyStrip code = "") := by
      rintro (rfl | h)
      · exact hstrip rfl
      · exact hstrip h
    rcases hfind : dangerous_patterns.find? (fun pat => strContains pat code)
      with _ | q
    · have hnp : ∀ p ∈ dangerous_patterns, strContains p code = false := by
        intro p hp
        have := List.find?_eq_none.mp hfind p hp
        simpa using this
      have hv : validate_code pyCompile code =
          (match pyCompile code with
           | .ok => (true, "")
           | .syntaxError msg => (false, "Syntax error: " ++ msg)
           | .otherError msg => (false, "Validation error: " ++ msg)) := by
        unfold validate_code
        rw [if_neg hif, hfind]
      refine ⟨?_, fun h => absurd h hstrip, ?_⟩
      · rw [hv]
        rcases hpc : pyCompile code with _ | m | m
        · exact ⟨fun _ => ⟨hstrip, hnp, rfl⟩, fun _ => rfl⟩
        · constructor
          · intro h
            exact absurd h Bool.false_ne_true
          · rintro ⟨-, -, hok⟩
            cases hok
        · constructor
          · intro h
            exact absurd h Bool.false_ne_true
          · rintro ⟨-, -, hok⟩
            cases hok
      · intro p hp hc _
        rw [hnp p hp] at hc
        cases hc
    · have hq : strContains q code = true := by
        simpa using List.find?_some hfind
      have hqmem : q ∈ dangerous_patterns := List.mem_of_find?_eq_some hfind
      have hv : validate_code pyCompile code =
          (false, "Potentially dangerous operation detected: " ++ q) := by
        unfold validate_code
        rw [if_neg hif, hfind]
      refine ⟨?_, fun h => absurd h hstrip, ?_⟩
      · rw [hv]
        constructor
        · intro h
          exact absurd h Bool.false_ne_true
        · rintro ⟨-, hall, -⟩
          rw [hall q hqmem] at hq
          cases hq
      · intro p hp hc _
        refine ⟨by rw [hv], q, hqmem, hq, by rw [hv]⟩

/-- Witness for C4: `x = eval('1')` contains the denylisted pattern
`eval(` and is rejected with a reason naming it, even though it would
compile. -/
theorem claim_C4_witness :
    ("eval(" ∈ dangerous_patterns ∧
      strContains "eval(" "x = eval('1')" = true ∧
      ¬ pyStrip "x = eval('1')" = "") ∧
    ((validate_code (fun _ => .ok) "x = eval('1')").1 = false ∧
      ∃ q, q ∈ dangerous_patterns ∧ strContains q "x = eval('1')" = true ∧
        (validate_code (fun _ => .ok) "x = eval('1')").2 =
          "Potentially dangerous operation detected: " ++ q) :=
  ⟨⟨by decide, by decide, by decide⟩,
    (claim_C4_validate_code_spec (fun _ => .ok) "x = eval('1')").2.2
      "eval(" (by decide) (by decide) (by decide)⟩

theorem quota_msg_head (uid : String) (n : Nat) :
    ("User " ++ uid ++ " has reached maximum kernel limit (" ++
      toString n ++ ")").data.head? = some 'U' := rfl

theorem start_msg_ne_quota_msg (uid : String) (n : Nat) :
    ¬ (("Kernel failed to start within 60 seconds" : String) =
      "User " ++ uid ++ " has reached maximum kernel limit (" ++
        toString n ++ ")") := by
  intro h
  have h4 : ("Kernel failed to start within 60 seconds" : String).data.head? =
      ("User " ++ uid ++ " has reached maximum kernel limit (" ++
        toString n ++ ")").data.head? :=
    congrArg (fun s => s.data.head?) h
  rw [quota_msg_head] at h4
  exact absurd h4 (by decide)

theorem reach_stThreeOwners : Reach defaultConfig stThreeOwners := by
  have h1 : Reach defaultConfig
      ({ kernels := [("a1", 0)], last_activity := [("a1", 100)],
         working_dirs := [("a1", "/w")], nextKid := 1, reaper := none }) := by
    have h := Reach.step (Reach.init : Reach defaultConfig initState)
      (Step.create envAt100 "a1" "/w" initState)
    rwa [show (get_or_create_kernel defaultConfig envAt100 "a1" "/w"
        initState).2.1 =
      ({ kernels := [("a1", 0)], last_activity := [("a1", 100)],
         working_dirs := [("a1", "/w")], nextKid := 1, reaper := none } :
        MState) from by decide] at h
  have h2 : Reach defaultConfig
      ({ kernels := [("a1", 0), ("a2", 1)],
         last_activity := [("a1", 100), ("a2", 100)],
         working_dirs := [("a1", "/w"), ("a2", "/w")],
         nextKid := 2, reaper := none }) := by
    have h := Reach.step h1 (Step.create envAt100 "a2" "/w" _)
    rwa [show (get_or_create_kernel defaultConfig envAt100 "a2" "/w"
        ({ kernels := [("a1", 0)], last_activity := [("a1", 100)],
           working_dirs := [("a1", "/w")], nextKid := 1, reaper := none } :
          MState)).2.1 =
      ({ kernels := [("a1", 0), ("a2", 1)],
         last_activity := [("a1", 100), ("a2", 100)],
         working_dirs := [("a1", "/w"), ("a2", "/w")],
         nextKid := 2, reaper := none } : MState) from by decide] at h
  have h := Reach.step h2 (Step.create envAt100 "a3" "/w" _)
  rwa [show (get_or_create_kernel defaultConfig envAt100 "a3" "/w"
      ({ kernels := [("a1", 0), ("a2", 1)],
         last_activity := [("a1", 100), ("a2", 100)],
         working_dirs := [("a1", "/w"), ("a2", "/w")],
         nextKid := 2, reaper := none } : MState)).2.1 = stThreeOwners
    from by decide] at h

/-- C2 counterexample: in the reachable state where the distinct owners
"a1", "a2", "a3" each hold one session, a creation attempt by owner "a" —
who holds no session at all — fails with the quota error, because the code
counts sessions by `uid.startswith(user_id)` (kernel_manager.py:82) rather
than by exact owner identity.  This falsifies "sessions belonging to
distinct owners never count toward this owner's quota" and "the (N+1)-th
concurrent creation attempt fails" (here the 1st attempt fails). -/
theorem claim_C2_counterexample :
    Reach defaultConfig stThreeOwners
    ∧ dictMem stThreeOwners.kernels "a" = false
    ∧ (get_or_create_kernel defaultConfig
        { now := 200, readyInTime := true, shutdownRaises := false } "a" "/w"
        stThreeOwners).1 =
      .error (.runtimeError "User a has reached maximum kernel limit (3)")
    ∧ (get_or_create_kernel defaultConfig
        { now := 200, readyInTime := true, shutdownRaises := false } "a" "/w"
        stThreeOwners).2.1 = stThreeOwners :=
  ⟨reach_stThreeOwners, by decide, by decide, by decide⟩

/-- C2 (amended): the quota check of `get_or_create_kernel` counts the
sessions whose key starts with the requesting owner id (string-prefix
matching, kernel_manager.py:82), not the sessions keyed by exactly that id:
for an owner with no reusable entry, creation fails with the quota error if
and only if the number of table keys having the owner id as a prefix is at
or above the cap, and on that failure the state is unchanged and no backend
is contacted.  (Sessions of distinct owners whose ids extend this owner's id
do count toward the quota — see the counterexample.) -/
theorem claim_C2_quota_prefix_counting (cfg : Config) (env : CreateEnv)
    (uid wd : String) (st : MState)
    (hmem : dictMem st.kernels uid = false) :
    ((get_or_create_kernel cfg env uid wd st).1 =
        .error (.runtimeError ("User " ++ uid ++
          " has reached maximum kernel limit (" ++
          toString cfg.max_kernels_per_user ++ ")"))
      ↔ cfg.max_kernels_per_user ≤
          (dictKeys st.kernels).countP (fun k => pyStartswith k uid))
    ∧ ((get_or_create_kernel cfg env uid wd st).1 =
        .error (.runtimeError ("User " ++ uid ++
          " has reached maximum kernel limit (" ++
          toString cfg.max_kernels_per_user ++ ")")) →
        (get_or_create_kernel cfg env uid wd st).2.1 = st ∧
        (get_or_create_kernel cfg env uid wd st).2.2 = []) := by
  have hv : get_or_create_kernel cfg env uid wd st =
      create_fresh_kernel cfg env uid wd st [] := by
    unfold get_or_create_kernel
    rw [if_neg (by simp [hmem])]
  rw [hv]
  unfold create_fresh_kernel
  split
  · next hcnt =>
    exact ⟨⟨fun _ => hcnt, fun _ => rfl⟩, fun _ => ⟨rfl, rfl⟩⟩
  · next hcnt =>
    split
    · constructor
      · constructor
        · intro h
          cases h
        · intro hle
          exact absurd hle hcnt
      · intro h
        cases h
    · constructor
      · constructor
        · intro h
          have h2 : ("Kernel failed to start within 60 seconds" : String) =
              "User " ++ uid ++ " has reached maximum kernel limit (" ++
                toString cfg.max_kernels_per_user ++ ")" := by
            injection h with h3
            injection h3
          exact absurd h2 (start_msg_ne_quota_msg uid cfg.max_kernels_per_user)
        · intro hle
          exact absurd hle hcnt
      · intro h
        have h2 : ("Kernel failed to start within 60 seconds" : String) =
            "User " ++ uid ++ " has reached maximum kernel limit (" ++
              toString cfg.max_kernels_per_user ++ ")" := by
          injection h with h3
          injection h3
        exact absurd h2 (start_msg_ne_quota_msg uid cfg.max_kernels_per_user)

/-- Witness for C2 (amended): with a cap of 0, an owner with no sessions at
all is already rejected by the quota check. -/
theorem claim_C2_witness :
    dictMem initState.kernels "u" = false ∧
    (get_or_create_kernel { timeout := 60, max_kernels_per_user := 0 }
      { now := 0, readyInTime := true, shutdownRaises := false } "u" "/w"
      initState).1 =
      .error (.runtimeError ("User " ++ "u" ++
        " has reached maximum kernel limit (" ++ toString (0 : Nat) ++ ")")) :=
  ⟨by decide,
    ((claim_C2_quota_prefix_counting { timeout := 60, max_kernels_per_user := 0 }
      { now := 0, readyInTime := true, shutdownRaises := false } "u" "/w"
      initState (by decide)).1).mpr (by decide)⟩

/-- C3: for an owner with a table entry, `get_or_create_kernel` returns the
stored kernel (same identity) with `last_activity` refreshed and no backend
interaction exactly when `now - last_activity < timeout`; otherwise the old
kernel is shut down (teardown event) and removed, and any kernel returned or
registered afterwards has a different identity.  The hypothesis
`kid < st.nextKid` holds in every reachable state (`Inv.kid_lt`). -/
theorem claim_C3_reuse_or_replace (cfg : Config) (env : CreateEnv)
    (uid wd : String) (st : MState) (kid : Nat) (la : Int)
    (hk : dictGet st.kernels uid = some kid)
    (hla : dictGet st.last_activity uid = some la)
    (hkid : kid < st.nextKid) :
    (env.now - la < cfg.timeout →
      get_or_create_kernel cfg env uid wd st =
        (.ok kid,
          { st with last_activity := dictSet st.last_activity uid env.now },
          []))
    ∧ (¬ env.now - la < cfg.timeout →
        BackendEvent.shutdownKernel kid true ∈
          (get_or_create_kernel cfg env uid wd st).2.2
        ∧ (∀ kid2, dictGet (get_or_create_kernel cfg env uid wd st).2.1.kernels
              uid = some kid2 → ¬ kid2 = kid)
        ∧ (∀ kid2, (get_or_create_kernel cfg env uid wd st).1 = .ok kid2 →
            ¬ kid2 = kid)) := by
  have hmem : dictMem st.kernels uid = true := by
    rw [dictMem_eq_isSome, hk]
    rfl
  have hmemla : dictMem st.last_activity uid = true := by
    rw [dictMem_eq_isSome, hla]
    rfl
  constructor
  · intro hfresh
    unfold get_or_create_kernel
    rw [if_pos hmem, hla]
    dsimp only
    rw [if_pos hfresh, hk]
  · intro hstale
    have hv : get_or_create_kernel cfg env uid wd st =
        create_fresh_kernel cfg env uid wd
          { st with kernels := dictDel st.kernels uid,
                    last_activity := dictDel st.last_activity uid,
                    working_dirs := dictDel st.working_dirs uid }
          [.shutdownKernel kid true] := by
      unfold get_or_create_kernel
      rw [if_pos hmem, hla]
      dsimp only
      rw [if_neg hstale,
        cleanup_kernel_mem env.shutdownRaises uid st kid hk hmemla]
    rw [hv]
    unfold create_fresh_kernel
    split
    · refine ⟨by simp, ?_, ?_⟩
      · intro kid2 hg
        rw [dictGet_dictDel_self] at hg
        exact absurd hg (by simp)
      · intro kid2 hg
        cases hg
    · split
      · refine ⟨by simp, ?_, ?_⟩
        · intro kid2 hg
          simp only [dictGet_dictSet_self] at hg
          cases hg
          intro heq
          rw [heq] at hkid
          exact Nat.lt_irrefl _ hkid
        · intro kid2 hg
          cases hg
          intro heq
          rw [heq] at hkid
          exact Nat.lt_irrefl _ hkid
      · refine ⟨by simp, ?_, ?_⟩
        · intro kid2 hg
          rw [dictGet_dictDel_self] at hg
          exact absurd hg (by simp)
        · intro kid2 hg
          cases hg

/-- The state in which the single owner "u" holds kernel 0, last active at
t = 0. -/
def stOneOwner : MState :=
  { kernels := [("u", 0)], last_activity := [("u", 0)],
    working_dirs := [("u", "/w")], nextKid := 1, reaper := none }

/-- Witness for C3: resolving "u" again within the idle window returns
kernel 0 with the activity timestamp refreshed and no backend event. -/
theorem claim_C3_witness :
    (dictGet stOneOwner.kernels "u" = some 0 ∧
      dictGet stOneOwner.last_activity "u" = some 0 ∧
      0 < stOneOwner.nextKid ∧
      envAt100.now - 0 < defaultConfig.timeout) ∧
    get_or_create_kernel defaultConfig envAt100 "u" "/w" stOneOwner =
      (.ok 0,
        { stOneOwner with
            last_activity := dictSet stOneOwner.last_activity "u" envAt100.now },
        []) :=
  ⟨⟨by decide, by decide, by decide, by decide⟩,
    (claim_C3_reuse_or_replace defaultConfig envAt100 "u" "/w" stOneOwner 0 0
      (by decide) (by decide) (by decide)).1 (by decide)⟩

/-- C5: whenever `get_or_create_kernel` starts a backend that does not
become ready in time, the call fails with the start-timeout error and the
started kernel receives a shutdown; conversely, on that error no entry for
the owner is registered, every other owner's entries are untouched, and if
the owner had no prior entry the three tables are exactly unchanged. -/
theorem claim_C5_start_timeout (cfg : Config) (env : CreateEnv)
    (uid wd : String) (st : MState) :
    (env.readyInTime = false →
      ∀ kid2 cwd, BackendEvent.startKernel kid2 cwd ∈
          (get_or_create_kernel cfg env uid wd st).2.2 →
        (get_or_create_kernel cfg env uid wd st).1 =
          .error (.runtimeError "Kernel failed to start within 60 seconds")
        ∧ BackendEvent.shutdownKernel kid2 false ∈
            (get_or_create_kernel cfg env uid wd st).2.2)
    ∧ ((get_or_create_kernel cfg env uid wd st).1 =
        .error (.runtimeError "Kernel failed to start within 60 seconds") →
        dictMem (get_or_create_kernel cfg env uid wd st).2.1.kernels uid = false
        ∧ (∀ v, ¬ v = uid →
            dictGet (get_or_create_kernel cfg env uid wd st).2.1.kernels v =
              dictGet st.kernels v
            ∧ dictGet (get_or_create_kernel cfg env uid wd
                st).2.1.last_activity v = dictGet st.last_activity v
            ∧ dictGet (get_or_create_kernel cfg env uid wd
                st).2.1.working_dirs v = dictGet st.working_dirs v)
        ∧ (dictMem st.kernels uid = false →
            (get_or_create_kernel cfg env uid wd st).2.1.kernels = st.kernels
            ∧ (get_or_create_kernel cfg env uid wd st).2.1.last_activity =
                st.last_activity
            ∧ (get_or_create_kernel cfg env uid wd st).2.1.working_dirs =
                st.working_dirs)) := by
  by_cases hmem : dictMem st.kernels uid = true
  · rcases hla : dictGet st.last_activity uid with _ | la
    · have hv : get_or_create_kernel cfg env uid wd st =
          (.error (.keyError uid), st, []) := by
        unfold get_or_create_kernel
        rw [if_pos hmem, hla]
      rw [hv]
      constructor
      · intro _ kid2 cwd hmemEv
        simp at hmemEv
      · intro hres
        injection hres with h3
        cases h3
    · rcases hk : dictGet st.kernels uid with _ | kid
      · rw [dictMem_eq_isSome, hk] at hmem
        exact absurd hmem (by simp)
      · by_cases hfresh : env.now - la < cfg.timeout
        · have hv : get_or_create_kernel cfg env uid wd st =
              (.ok kid,
                { st with
                    last_activity := dictSet st.last_activity uid env.now },
                []) := by
            unfold get_or_create_kernel
            rw [if_pos hmem, hla]
            dsimp only
            rw [if_pos hfresh, hk]
          rw [hv]
          constructor
          · intro _ kid2 cwd hmemEv
            simp at hmemEv
          · intro hres
            cases hres
        · have hmemla : dictMem st.last_activity uid = true := by
            rw [dictMem_eq_isSome, hla]
            rfl
          have hv : get_or_create_kernel cfg env uid wd st =
              create_fresh_kernel cfg env uid wd
                { st with kernels := dictDel st.kernels uid,
                          last_activity := dictDel st.last_activity uid,
                          working_dirs := dictDel st.working_dirs uid }
                [.shutdownKernel kid true] := by
            unfold get_or_create_kernel
            rw [if_pos hmem, hla]
            dsimp only
            rw [if_neg hfresh,
              cleanup_kernel_mem env.shutdownRaises uid st kid hk hmemla]
          rw [hv]
          unfold create_fresh_kernel
          split
          · constructor
            · intro _ kid2 cwd hmemEv
              simp at hmemEv
            · intro hres
              injection hres with h3
              injection h3 with h4
              exact absurd h4.symm
                (start_msg_ne_quota_msg uid cfg.max_kernels_per_user)
          · split
            · next hready =>
              constructor
              · intro hrf _ _ _
                rw [hready] at hrf
                cases hrf
              · intro hres
                cases hres
            · constructor
              · intro _ kid2 cwd hmemEv
                simp at hmemEv
                obtain ⟨rfl, rfl⟩ := hmemEv
                exact ⟨rfl, by simp⟩
              · intro _
                refine ⟨?_, ?_, ?_⟩
                · simp [dictMem_dictDel]
                · intro v hvne
                  exact ⟨dictGet_dictDel_ne _ _ _ hvne,
                    dictGet_dictDel_ne _ _ _ hvne,
                    dictGet_dictDel_ne _ _ _ hvne⟩
                · intro hmemf
                  rw [hmem] at hmemf
                  cases hmemf
  · have hmemf : dictMem st.kernels uid = false := by
      simpa using hmem
    have hv : get_or_create_kernel cfg env uid wd st =
        create_fresh_kernel cfg env uid wd st [] := by
      unfold get_or_create_kernel
      rw [if_neg hmem]
    rw [hv]
    unfold create_fresh_kernel
    split
    · constructor
      · intro _ kid2 cwd hmemEv
        simp at hmemEv
      · intro hres
        injection hres with h3
        injection h3 with h4
        exact absurd h4.symm
          (start_msg_ne_quota_msg uid cfg.max_kernels_per_user)
    · split
      · next hready =>
        constructor
        · intro hrf _ _ _
          rw [hready] at hrf
          cases hrf
        · intro hres
          cases hres
      · constructor
        · intro _ kid2 cwd hmemEv
          simp at hmemEv
          obtain ⟨rfl, rfl⟩ := hmemEv
          exact ⟨rfl, by simp⟩
        · intro _
          exact ⟨hmemf, fun v _ => ⟨rfl, rfl, rfl⟩, fun _ => ⟨rfl, rfl, rfl⟩⟩

/-- Witness for C5: from the empty table, a creation whose backend never
becomes ready fails with the start-timeout error, the started kernel 0 is
shut down, and the tables stay empty. -/
theorem claim_C5_witness :
    (({ now := 0, readyInTime := false, shutdownRaises := false } :
        CreateEnv).readyInTime = false ∧
      BackendEvent.startKernel 0 "/w" ∈
        (get_or_create_kernel defaultConfig
          { now := 0, readyInTime := false, shutdownRaises := false }
          "u" "/w" initState).2.2) ∧
    (get_or_create_kernel defaultConfig
        { now := 0, readyInTime := false, shutdownRaises := false }
        "u" "/w" initState).1 =
      .error (.runtimeError "Kernel failed to start within 60 seconds") ∧
    BackendEvent.shutdownKernel 0 false ∈
      (get_or_create_kernel defaultConfig
        { now := 0, readyInTime := false, shutdownRaises := false }
        "u" "/w" initState).2.2 :=
  ⟨⟨rfl, by decide⟩,
    (claim_C5_start_timeout defaultConfig
      { now := 0, readyInTime := false, shutdownRaises := false }
      "u" "/w" initState).1 rfl 0 "/w" (by decide)⟩

/-- C6: `cleanup_kernel` never raises (in any state satisfying the table
invariant that a kernel entry implies an activity entry), is a no-op for an
unknown owner, removes the owner from all three tables (attempting the
forced shutdown of the stored kernel) when present, behaves identically
whether or not the shutdown raises, and is idempotent. -/
theorem claim_C6_cleanup_idempotent_never_raises (b : Bool) (uid : String)
    (st : MState)
    (hsub : dictMem st.kernels uid = true →
      dictMem st.last_activity uid = true) :
    (cleanup_kernel b uid st).1 = .ok ()
    ∧ (dictMem st.kernels uid = false →
        cleanup_kernel b uid st = (.ok (), st, []))
    ∧ (dictMem st.kernels uid = true →
        dictGet (cleanup_kernel b uid st).2.1.kernels uid = none
        ∧ dictGet (cleanup_kernel b uid st).2.1.last_activity uid = none
        ∧ dictGet (cleanup_kernel b uid st).2.1.working_dirs uid = none
        ∧ ∃ kid, dictGet st.kernels uid = some kid ∧
            BackendEvent.shutdownKernel kid true ∈ (cleanup_kernel b uid st).2.2)
    ∧ cleanup_kernel true uid st = cleanup_kernel false uid st
    ∧ cleanup_kernel b uid (cleanup_kernel b uid st).2.1 =
        (.ok (), (cleanup_kernel b uid st).2.1, []) := by
  by_cases hmem : dictMem st.kernels uid = true
  · rcases hk : dictGet st.kernels uid with _ | kid
    · rw [dictMem_eq_isSome, hk] at hmem
      exact absurd hmem (by simp)
    · have hla := hsub hmem
      rw [cleanup_kernel_mem b uid st kid hk hla]
      refine ⟨rfl, ?_, ?_, ?_, ?_⟩
      · intro h
        rw [hmem] at h
        cases h
      · intro _
        exact ⟨dictGet_dictDel_self _ _, dictGet_dictDel_self _ _,
          dictGet_dictDel_self _ _, kid, rfl, by simp⟩
      · rw [cleanup_kernel_mem true uid st kid hk hla,
          cleanup_kernel_mem false uid st kid hk hla]
      · rw [cleanup_kernel_not_mem b uid _ (by simp [dictMem_dictDel])]
  · have hmemf : dictMem st.kernels uid = false := by
      simpa using hmem
    rw [cleanup_kernel_not_mem b uid st hmemf]
    refine ⟨rfl, fun _ => rfl, ?_, ?_, ?_⟩
    · intro h
      rw [hmemf] at h
      cases h
    · rw [cleanup_kernel_not_mem true uid st hmemf,
        cleanup_kernel_not_mem false uid st hmemf]
    · rw [cleanup_kernel_not_mem b uid st hmemf]

/-- Witness for C6: destroying "u" succeeds, removes its entries, and a
second destroy is a no-op. -/
theorem claim_C6_witness :
    (dictMem stOneOwner.kernels "u" = true →
      dictMem stOneOwner.last_activity "u" = true) ∧
    (cleanup_kernel false "u" stOneOwner).1 = .ok () ∧
    dictGet (cleanup_kernel false "u" stOneOwner).2.1.kernels "u" = none ∧
    cleanup_kernel false "u" (cleanup_kernel false "u" stOneOwner).2.1 =
      (.ok (), (cleanup_kernel false "u" stOneOwner).2.1, []) :=
  ⟨fun _ => by decide,
    (claim_C6_cleanup_idempotent_never_raises false "u" stOneOwner
      (fun _ => by decide)).1,
    ((claim_C6_cleanup_idempotent_never_raises false "u" stOneOwner
      (fun _ => by decide)).2.2.1 (by decide)).1,
    (claim_C6_cleanup_idempotent_never_raises false "u" stOneOwner
      (fun _ => by decide)).2.2.2.2⟩

theorem cleanupMany_spec (b : Bool) : ∀ (us : List String) (st : MState),
    (∀ u, dictMem st.kernels u = true → dictMem st.last_activity u = true) →
    (cleanupMany b us st).1 = .ok ()
    ∧ (∀ u, dictMem (cleanupMany b us st).2.1.kernels u = true →
        dictMem st.kernels u = true ∧ ¬ u ∈ us)
    ∧ (∀ u, dictMem (cleanupMany b us st).2.1.kernels u = true →
        dictMem (cleanupMany b us st).2.1.last_activity u = true)
    ∧ (cleanupMany b us st).2.1.reaper = st.reaper := by
  intro us
  induction us with
  | nil =>
    intro st hsub
    exact ⟨rfl, fun u hu => ⟨hu, by simp⟩, fun u hu => hsub u hu, rfl⟩
  | cons uid rest ih =>
    intro st hsub
    by_cases hmem : dictMem st.kernels uid = true
    · rcases hk : dictGet st.kernels uid with _ | kid
      · rw [dictMem_eq_isSome, hk] at hmem
        exact absurd hmem (by simp)
      · have hla := hsub uid hmem
        rcases hrec : cleanupMany b rest
            { st with kernels := dictDel st.kernels uid,
                      last_activity := dictDel st.last_activity uid,
                      working_dirs := dictDel st.working_dirs uid }
          with ⟨r2, st2, ev2⟩
        have heq : cleanupMany b (uid :: rest) st =
            (r2, st2, [BackendEvent.shutdownKernel kid true] ++ ev2) := by
          unfold cleanupMany
          rw [cleanup_kernel_mem b uid st kid hk hla]
          dsimp only
          rw [hrec]
        rw [heq]
        have hsubD : ∀ u,
            dictMem (dictDel st.kernels uid) u = true →
            dictMem (dictDel st.last_activity uid) u = true := by
          intro u hu
          rw [dictMem_dictDel] at hu ⊢
          rcases (Bool.and_eq_true _ _).mp hu with ⟨h1, h2⟩
          rw [hsub u h1, h2]
          rfl
        have ihD := ih
          { st with kernels := dictDel st.kernels uid,
                    last_activity := dictDel st.last_activity uid,
                    working_dirs := dictDel st.working_dirs uid } hsubD
        rw [hrec] at ihD
        refine ⟨ihD.1, ?_, ihD.2.2.1, ihD.2.2.2⟩
        intro u hu
        have h2 := ihD.2.1 u hu
        have h3 := h2.1
        rw [dictMem_dictDel] at h3
        rcases (Bool.and_eq_true _ _).mp h3 with ⟨h4, h5⟩
        refine ⟨h4, ?_⟩
        intro hcon
        rcases List.mem_cons.mp hcon with rfl | hcon2
        · simp at h5
        · exact h2.2 hcon2
    · have hmemf : dictMem st.kernels uid = false := by
        simpa using hmem
      rcases hrec : cleanupMany b rest st with ⟨r2, st2, ev2⟩
      have heq : cleanupMany b (uid :: rest) st = (r2, st2, [] ++ ev2) := by
        unfold cleanupMany
        rw [cleanup_kernel_not_mem b uid st hmemf]
        dsimp only
        rw [hrec]
      rw [heq]
      have ihD := ih st hsub
      rw [hrec] at ihD
      refine ⟨ihD.1, ?_, ihD.2.2.1, ihD.2.2.2⟩
      intro u hu
      have h2 := ihD.2.1 u hu
      refine ⟨h2.1, ?_⟩
      intro hcon
      rcases List.mem_cons.mp hcon with rfl | hcon2
      · rw [h2.1] at hmemf
        cases hmemf
      · exact h2.2 hcon2

/-- C7: under the table invariant, `shutdown_all` raises nothing, leaves the
kernels table empty, and turns an existing cleanup task (running or not)
into a cancelled-and-awaited one before returning. -/
theorem claim_C7_shutdown_all (b : Bool) (st : MState)
    (hsub : ∀ u, dictMem st.kernels u = true →
      dictMem st.last_activity u = true) :
    (shutdown_all b st).1 = .ok ()
    ∧ (shutdown_all b st).2.1.kernels = []
    ∧ (∀ r, st.reaper = some r →
        (shutdown_all b st).2.1.reaper = some ReaperStatus.cancelledAwaited) := by
  have hcm := cleanupMany_spec b (dictKeys st.kernels) st hsub
  rcases hrec : cleanupMany b (dictKeys st.kernels) st with ⟨r2, st2, ev2⟩
  rw [hrec] at hcm
  have hr2 : r2 = .ok () := hcm.1
  subst hr2
  have hkempty : st2.kernels = [] := by
    rcases hk : st2.kernels with _ | ⟨kv, rest⟩
    · rfl
    · exfalso
      have hmem2 : dictMem st2.kernels kv.1 = true := by
        rw [hk]
        exact dictMem_head_of_nonempty kv rest
      have h2 := hcm.2.1 kv.1 hmem2
      exact h2.2 ((dictMem_iff st.kernels kv.1).mp h2.1)
  have hv : shutdown_all b st =
      (match st2.reaper with
       | none => (.ok (), st2, ev2)
       | some _ =>
         (.ok (), { st2 with reaper := some .cancelledAwaited }, ev2)) := by
    unfold shutdown_all
    rw [hrec]
  rcases hre : st2.reaper with _ | rs
  · rw [hv, hre]
    refine ⟨rfl, hkempty, ?_⟩
    intro r hr
    rw [hcm.2.2.2, hr] at hre
    cases hre
  · rw [hv, hre]
    exact ⟨rfl, hkempty, fun r _ => rfl⟩

/-- The single-owner state with a running cleanup task. -/
def stOneOwnerReaper : MState :=
  { stOneOwner with reaper := some .running }

/-- Witness for C7: shutting down the single-owner manager empties the
table and leaves the cleanup task cancelled and awaited. -/
theorem claim_C7_witness :
    (∀ u, dictMem stOneOwnerReaper.kernels u = true →
      dictMem stOneOwnerReaper.last_activity u = true) ∧
    (shutdown_all false stOneOwnerReaper).1 = .ok () ∧
    (shutdown_all false stOneOwnerReaper).2.1.kernels = [] ∧
    (shutdown_all false stOneOwnerReaper).2.1.reaper =
      some ReaperStatus.cancelledAwaited :=
  have hsub : ∀ u, dictMem stOneOwnerReaper.kernels u = true →
      dictMem stOneOwnerReaper.last_activity u = true := by
    intro u hu
    simpa [stOneOwnerReaper, stOneOwner, dictMem] using hu
  ⟨hsub,
    (claim_C7_shutdown_all false stOneOwnerReaper hsub).1,
    (claim_C7_shutdown_all false stOneOwnerReaper hsub).2.1,
    (claim_C7_shutdown_all false stOneOwnerReaper hsub).2.2
      ReaperStatus.running rfl⟩

/-- C9: the `_periodic_cleanup` loop never lets an exception escape: a
cancellation during an iteration ends the loop cleanly with the state
untouched, and an iteration is never the last one for any other reason —
after a sweep (raising or not) the loop goes on with the remaining
schedule. -/
theorem claim_C9_reaper_loop (cfg : Config) :
    (∀ envs st, (periodic_cleanup cfg envs st).1.isRaising = false)
    ∧ (∀ n b rest st,
        periodic_cleanup cfg
          ({ cancelled := true, now := n, shutdownRaises := b } :: rest) st =
          (.exitedClean, st))
    ∧ (∀ n b rest st,
        periodic_cleanup cfg
          ({ cancelled := false, now := n, shutdownRaises := b } :: rest) st =
          periodic_cleanup cfg rest
            (cleanup_expired_kernels cfg n b st).2.1) := by
  refine ⟨?_, ?_, ?_⟩
  · intro envs
    induction envs with
    | nil =>
      intro st
      rfl
    | cons env rest ih =>
      intro st
      unfold periodic_cleanup
      rcases hc : env.cancelled
      · exact ih _
      · rfl
  · intro n b rest st
    rfl
  · intro n b rest st
    rfl

/-- C8: in every reachable state of the session table, at most one kernel
entry exists per owner id: the key list of `self.kernels` has no duplicates,
equivalently no owner id occurs more than once. -/
theorem claim_C8_at_most_one_session_per_owner (cfg : Config) (st : MState)
    (h : Reach cfg st) :
    (dictKeys st.kernels).Nodup ∧
    ∀ u, (dictKeys st.kernels).count u ≤ 1 := by
  have hi := inv_of_reach h
  exact ⟨hi.kNodup, fun u => List.nodup_iff_count_le_one.mp hi.kNodup u⟩

/-- Witness for C8 at the initial state. -/
theorem claim_C8_witness :
    Reach defaultConfig initState ∧
    ((dictKeys initState.kernels).Nodup ∧
      ∀ u, (dictKeys initState.kernels).count u ≤ 1) :=
  ⟨Reach.init,
    claim_C8_at_most_one_session_per_owner defaultConfig initState Reach.init⟩

/-- C10: every reachable state satisfies the structural invariant: the
owners with a kernel entry are exactly the owners with an activity
timestamp, and every owner with a recorded working directory has a kernel
entry. -/
theorem claim_C10_structural_invariant (cfg : Config) (st : MState)
    (h : Reach cfg st) :
    (∀ u, dictMem st.kernels u = dictMem st.last_activity u)
    ∧ (∀ u, dictMem st.working_dirs u = true →
        dictMem st.kernels u = true) :=
  ⟨(inv_of_reach h).dom_eq, (inv_of_reach h).wd_sub⟩

/-- Witness for C10 at the initial state. -/
theorem claim_C10_witness :
    Reach defaultConfig initState ∧
    ((∀ u, dictMem initState.kernels u = dictMem initState.last_activity u)
      ∧ (∀ u, dictMem initState.working_dirs u = true →
          dictMem initState.kernels u = true)) :=
  ⟨Reach.init,
    claim_C10_structural_invariant defaultConfig initState Reach.init⟩

end PyExec
